import Mathlib

/-!
Shallow embedding of the helper layer of the EM-vs-Knn metabolomics
imputation repository (file src/utils/helpers.py), together with theorems
settling the specification's claims about it.

Modelling conventions:
  * a pandas DataFrame is reduced to what this layer observes of it:
    a list of column names and a list of rows, each cell reduced to its
    missingness (true means the cell is null);
  * machine floats that can only arise as quotients of cell counts are
    modelled exactly: an `FVal` is NaN, +infinity, or an exact rational
    (pandas produces NaN for 0/0 and +infinity for n/0 with n > 0);
  * `sort_values('pct_missing', ascending=False)` runs with the default
    `kind='quicksort'`, which pandas documents as NOT stable: what the
    program guarantees (some permutation of the rows, descending by the
    key, NaN last) is captured by the relation `sortValuesOutcome`, and
    the relative order of tied rows is implementation-defined; the
    executable `calculate_missing_percentage` fixes one admissible
    outcome and is relied on only for order-insensitive properties;
  * the configuration dictionary is modelled with one `Option` field per
    nested key path the layer reads, `none` meaning the key path is
    absent, so that Python's `KeyError` becomes `Except.error`;
  * filesystem and logging effects are reified as explicit effect values
    or world states threaded through the functions.
-/

namespace EMKnn

/-- Outcome of an IEEE-style division/multiplication as it matters to this
layer: NaN for 0/0, +infinity for n/0 with n > 0, otherwise an exact
rational value. -/
inductive FVal where
  | nan : FVal
  | inf : FVal
  | fin : ℚ → FVal
deriving DecidableEq, Repr

/-- A tabular dataset as the helper layer observes it: column names plus
rows of cell-missingness flags (true means the cell is null). -/
structure DataFrame where
  colNames : List String
  rows : List (List Bool)
deriving DecidableEq, Repr

/-- Well-formedness of a tabular dataset: every row has one cell per
column. -/
def DataFrame.wf (df : DataFrame) : Prop :=
  ∀ r ∈ df.rows, r.length = df.colNames.length

/-- Number of null cells in column `j`, i.e. the per-column value of
`data.isnull().sum()` (helpers.py line 177). -/
def nMissing (df : DataFrame) (j : Nat) : Nat :=
  (df.rows.filter (fun r => r.getD j false)).length

/-- Float division of cell counts, `n / d` (part of helpers.py line 178):
0/0 is NaN, n/0 with n > 0 is +infinity. -/
def fdivNat (n d : Nat) : FVal :=
  if d = 0 then (if n = 0 then FVal.nan else FVal.inf)
  else FVal.fin ((n : ℚ) / (d : ℚ))

/-- Float multiplication by 100 (the `* 100` of helpers.py line 178);
NaN and infinity are absorbing. -/
def fmul100 : FVal → FVal
  | FVal.nan => FVal.nan
  | FVal.inf => FVal.inf
  | FVal.fin q => FVal.fin (q * 100)

/-- One row of the missing-value statistics table. -/
structure StatRow where
  feature : String
  n_missing : Nat
  pct_missing : FVal
deriving DecidableEq, Repr

/-- The statistics DataFrame built before sorting (helpers.py lines
175-179): one row per input column, in input column order. -/
def baseStats (df : DataFrame) : List StatRow :=
  (List.range df.colNames.length).map (fun j =>
    { feature := df.colNames.getD j ""
      n_missing := nMissing df j
      pct_missing := fmul100 (fdivNat (nMissing df j) df.rows.length) })

/-- Comparator for the descending sort on `pct_missing`: `descBefore a b`
means `a` may be placed before (or tied with) `b`. NaN is placed last,
matching the pandas `na_position` default. -/
def FVal.descBefore : FVal → FVal → Bool
  | FVal.nan, FVal.nan => true
  | FVal.nan, _ => false
  | _, FVal.nan => true
  | FVal.inf, _ => true
  | FVal.fin _, FVal.inf => false
  | FVal.fin a, FVal.fin b => decide (b ≤ a)

/-- Row comparator used by the sort: compare by `pct_missing` only. -/
def statLE (a b : StatRow) : Bool := FVal.descBefore a.pct_missing b.pct_missing

/-- What the program's sort call guarantees.
`sort_values('pct_missing', ascending=False)` (helpers.py line 181)
runs with the default `kind='quicksort'`, which pandas documents as not
stable, so the only contract is: the output is a permutation of the
input rows, arranged descending by `pct_missing` with NaN placed last
(the `na_position` default). The relative order of rows with equal
`pct_missing` is implementation-defined. -/
def sortValuesOutcome (base out : List StatRow) : Prop :=
  List.Perm out base ∧ List.Pairwise (fun a b => statLE a b = true) out

/-- Embedding of `calculate_missing_percentage` (helpers.py lines
161-183): build the per-column statistics and sort them by `pct_missing`
descending. Because the source's sort leaves the order of tied rows
implementation-defined (see `sortValuesOutcome`), this executable model
fixes one admissible outcome (`List.mergeSort`); theorems about the
program rely on it only for properties that hold for every admissible
outcome. -/
def calculate_missing_percentage (df : DataFrame) : List StatRow :=
  (baseStats df).mergeSort statLE

theorem descBefore_refl (a : FVal) : FVal.descBefore a a = true := by
  cases a <;> simp [FVal.descBefore]

theorem descBefore_total (a b : FVal) :
    FVal.descBefore a b || FVal.descBefore b a := by
  cases a <;> cases b <;> simp [FVal.descBefore] <;> exact le_total _ _

theorem descBefore_trans (a b c : FVal) (h1 : FVal.descBefore a b)
    (h2 : FVal.descBefore b c) : FVal.descBefore a c = true := by
  cases a <;> cases b <;> cases c <;>
    simp_all [FVal.descBefore] <;> exact le_trans h2 h1

theorem statLE_total (a b : StatRow) : statLE a b || statLE b a :=
  descBefore_total _ _

theorem statLE_trans (a b c : StatRow) (h1 : statLE a b) (h2 : statLE b c) :
    statLE a c = true :=
  descBefore_trans _ _ _ h1 h2

theorem length_baseStats (df : DataFrame) :
    (baseStats df).length = df.colNames.length := by
  simp [baseStats]

/-- The executable model is one of the admissible outcomes of the
program's sort contract. -/
theorem calculate_missing_percentage_admissible (df : DataFrame) :
    sortValuesOutcome (baseStats df) (calculate_missing_percentage df) :=
  ⟨List.mergeSort_perm (baseStats df) statLE,
   List.sorted_mergeSort statLE_trans statLE_total (baseStats df)⟩

theorem baseStats_getElem (df : DataFrame) (j : Nat)
    (hj : j < df.colNames.length) :
    (baseStats df)[j]? = some
      { feature := df.colNames.getD j ""
        n_missing := nMissing df j
        pct_missing := fmul100 (fdivNat (nMissing df j) df.rows.length) } := by
  simp [baseStats, List.getElem?_map, List.getElem?_range, hj]

theorem nMissing_of_no_missing (df : DataFrame)
    (h : ∀ r ∈ df.rows, ∀ b ∈ r, b = false) (j : Nat) :
    nMissing df j = 0 := by
  simp only [nMissing, List.length_eq_zero, List.filter_eq_nil_iff]
  intro r hr
  cases hg : r.getD j false with
  | false => simp
  | true =>
      exfalso
      have hmem : (true : Bool) ∈ r := by
        rcases Nat.lt_or_ge j r.length with hlt | hge
        · have := List.getD_eq_getElem r false hlt
          rw [hg] at this
          exact this ▸ List.getElem_mem _
        · rw [List.getD_eq_default r false hge] at hg
          exact absurd hg (by simp)
      exact absurd (h r hr true hmem) (by simp)

theorem pct_formula (n d : Nat) (hd : d ≠ 0) :
    fmul100 (fdivNat n d) = FVal.fin (100 * (n : ℚ) / (d : ℚ)) := by
  simp only [fdivNat, fmul100, hd, if_false]
  congr 1
  ring

theorem baseStats_pct_zero (df : DataFrame) (h0 : df.rows ≠ [])
    (h : ∀ r ∈ df.rows, ∀ b ∈ r, b = false) :
    ∀ s ∈ baseStats df, s.pct_missing = FVal.fin 0 := by
  intro s hs
  have hd : df.rows.length ≠ 0 := by
    simpa [List.length_eq_zero] using h0
  rcases List.mem_map.mp hs with ⟨j, _, rfl⟩
  simp [nMissing_of_no_missing df h j, pct_formula 0 df.rows.length hd]

/-- A 16-column, one-row dataset with no missing values: every column's
`pct_missing` ties at 0. Sixteen tied keys are enough for numpy's
introsort (the default `kind='quicksort'` behind `sort_values`) to
leave its stable insertion-sort small-array regime, where tied elements
get permuted. -/
def dfBug : DataFrame :=
  DataFrame.mk
    ["c0", "c1", "c2", "c3", "c4", "c5", "c6", "c7",
     "c8", "c9", "c10", "c11", "c12", "c13", "c14", "c15"]
    [List.replicate 16 false]

/-- Exchange of the first two entries of a list. -/
def swapHead : List α → List α
  | a :: b :: rest => b :: a :: rest
  | l => l

/-- The statistics of `dfBug` with the first two (tied) rows exchanged:
an order the program's sort contract admits but the claim forbids. -/
def statsUnstable : List StatRow := swapHead (baseStats dfBug)

theorem swapHead_perm (l : List α) : List.Perm (swapHead l) l := by
  match l with
  | [] => exact List.Perm.refl _
  | [a] => exact List.Perm.refl _
  | a :: b :: rest => exact List.Perm.swap a b rest

theorem map_swapHead (f : α → β) (l : List α) :
    (swapHead l).map f = swapHead (l.map f) := by
  match l with
  | [] => rfl
  | [a] => rfl
  | a :: b :: rest => rfl

theorem dfBug_pct_zero : ∀ s ∈ baseStats dfBug, s.pct_missing = FVal.fin 0 :=
  baseStats_pct_zero dfBug (by decide) (by decide)

theorem pairwise_of_pct_zero (l : List StatRow)
    (h : ∀ s ∈ l, s.pct_missing = FVal.fin 0) :
    List.Pairwise (fun a b => statLE a b = true) l := by
  apply List.pairwise_of_forall_mem_list
  intro a ha b hb
  simp [statLE, h a ha, h b hb, descBefore_refl]

theorem dfBug_features : (baseStats dfBug).map (fun s => s.feature)
    = ["c0", "c1", "c2", "c3", "c4", "c5", "c6", "c7",
       "c8", "c9", "c10", "c11", "c12", "c13", "c14", "c15"] := by
  simp only [baseStats, List.map_map]
  decide

theorem statsUnstable_ne : statsUnstable ≠ baseStats dfBug := by
  intro h
  have hmap := congrArg (List.map (fun s => s.feature)) h
  rw [statsUnstable, map_swapHead, dfBug_features] at hmap
  exact absurd hmap (by decide)

theorem dfBug_pct_replicate : (baseStats dfBug).map (fun s => s.pct_missing)
    = List.replicate 16 (FVal.fin 0) := by
  apply List.eq_replicate_of_mem
  intro q hq
  rcases List.mem_map.mp hq with ⟨s, hs, rfl⟩
  exact dfBug_pct_zero s hs

/-- C1 is contradicted by the code as written. On `dfBug` — a dataset
with no missing value, whose sixteen `pct_missing` keys therefore all
tie at 0 — the claim (and the specification contract it quotes) demands
the stable, input-ordered output `baseStats dfBug`. But the sort the
code performs, `sort_values('pct_missing', ascending=False)` with the
default `kind='quicksort'`, guarantees only `sortValuesOutcome`, which
admits the tie-permuted `statsUnstable` just as well: the code does not
implement the stable-tie contract the claim states (that would require
`kind='stable'`), so neither the tie-stability nor the
order-preservation clause of C1 is a property of the program. -/
theorem C1_unstable_sort_code_bug :
    (baseStats dfBug).map (fun s => s.pct_missing)
        = List.replicate 16 (FVal.fin 0)
    ∧ sortValuesOutcome (baseStats dfBug) (baseStats dfBug)
    ∧ sortValuesOutcome (baseStats dfBug) statsUnstable
    ∧ statsUnstable ≠ baseStats dfBug := by
  refine ⟨dfBug_pct_replicate,
    ⟨List.Perm.refl _, pairwise_of_pct_zero _ dfBug_pct_zero⟩,
    ⟨swapHead_perm _, pairwise_of_pct_zero _ ?_⟩,
    statsUnstable_ne⟩
  intro s hs
  exact dfBug_pct_zero s ((swapHead_perm (baseStats dfBug)).subset hs)

/-- C9: on a dataset with zero rows the division in
`calculate_missing_percentage` is unguarded (0/0): the function still
returns one row per column and does not fail, but every `pct_missing` is
NaN (and every `n_missing` is 0). -/
theorem C9_zero_rows_nan (df : DataFrame) (h : df.rows = []) :
    (calculate_missing_percentage df).length = df.colNames.length
    ∧ ∀ s ∈ calculate_missing_percentage df,
        s.pct_missing = FVal.nan ∧ s.n_missing = 0 := by
  constructor
  · rw [calculate_missing_percentage, List.length_mergeSort, length_baseStats]
  · intro s hs
    have hs2 : s ∈ baseStats df := List.mem_mergeSort.mp hs
    rcases List.mem_map.mp hs2 with ⟨j, _, rfl⟩
    have hn : nMissing df j = 0 := by simp [nMissing, h]
    simp [hn, h, fdivNat, fmul100]

/-- Concrete instantiation of C9 at a two-column, zero-row dataset. -/
theorem C9_zero_rows_nan_witness :
    (DataFrame.mk ["a", "b"] []).rows = []
    ∧ ((calculate_missing_percentage (DataFrame.mk ["a", "b"] [])).length
        = (DataFrame.mk ["a", "b"] []).colNames.length
      ∧ ∀ s ∈ calculate_missing_percentage (DataFrame.mk ["a", "b"] []),
          s.pct_missing = FVal.nan ∧ s.n_missing = 0) :=
  ⟨rfl, C9_zero_rows_nan (DataFrame.mk ["a", "b"] []) rfl⟩

/-- The configuration dictionary, reduced to the nested key paths this
layer reads. A field holding `none` models the absence of that key path
in the document (so a Python dictionary access on it raises KeyError);
association lists keep the stored (insertion) order of the Python
dictionaries. -/
structure Config where
  paths : Option (List (String × String))
  datasetSamples : Option (List (String × Nat))
  visualizationColors : Option (List (String × String))
  projectName : Option String
  datasetName : Option String
  totalFiles : Option Nat
deriving DecidableEq, Repr

/-- Dictionary access on a modelled key path: absent paths raise
KeyError, present ones return the stored value. -/
def key? (v : Option α) (path : String) : Except String α :=
  match v with
  | some x => Except.ok x
  | none => Except.error ("KeyError: " ++ path)

/-- One row of the sample-information table. -/
structure SampleRow where
  sample_id : String
  group : String
  color : String
deriving DecidableEq, Repr

/-- Color lookup with default, `colors.get(group, "#999999")`
(helpers.py line 155). -/
def colorFor (colors : List (String × String)) (g : String) : String :=
  (List.lookup g colors).getD "#999999"

/-- Loop body of `get_sample_info` for one group: emit `count` rows with
1-based index suffixes; the `config["visualization"]["colors"]` access
happens inside the inner loop, once per generated row, exactly as in the
source (helpers.py lines 150-156). -/
def sampleBody (config : Config) (acc : List SampleRow) (gc : String × Nat) :
    Except String (List SampleRow) := do
  let newRows ← (List.range gc.2).mapM (fun i => do
    let colors ← key? config.visualizationColors "visualization.colors"
    Except.ok { sample_id := gc.1 ++ "_" ++ toString (i + 1)
                group := gc.1
                color := colorFor colors gc.1 })
  Except.ok (acc ++ newRows)

/-- Embedding of `get_sample_info` (helpers.py lines 133-158): read
`config["dataset"]["samples"]`, then loop over the groups in stored
order accumulating sample rows. -/
def get_sample_info (config : Config) : Except String (List SampleRow) := do
  let samples ← key? config.datasetSamples "dataset.samples"
  samples.foldlM (sampleBody config) []

/-- The sample row emitted for position `i` (0-based) of group `g`. -/
def rowOf (cs : List (String × String)) (g : String) (i : Nat) : SampleRow :=
  { sample_id := g ++ "_" ++ toString (i + 1)
    group := g
    color := colorFor cs g }

/-- The sample-information rows produced when both key paths are
present. -/
def sampleRowsPure (samples : List (String × Nat))
    (colors : List (String × String)) : List SampleRow :=
  samples.flatMap (fun gc => (List.range gc.2).map (rowOf colors gc.1))

theorem mapM_ok_of_colors (cs : List (String × String)) (g : String)
    (c : Nat) (cfg : Config) (h : cfg.visualizationColors = some cs) :
    (List.range c).mapM (fun i => do
      let colors ← key? cfg.visualizationColors "visualization.colors"
      (Except.ok
        { sample_id := g ++ "_" ++ toString (i + 1)
          group := g
          color := colorFor colors g } : Except String SampleRow))
      = Except.ok ((List.range c).map (rowOf cs g)) := by
  induction (List.range c) with
  | nil => rfl
  | cons x xs ih =>
      rw [List.mapM_cons, ih]
      simp [h, key?, rowOf]
      rfl

theorem sampleBody_ok (cfg : Config) (cs : List (String × String))
    (h : cfg.visualizationColors = some cs) (acc : List SampleRow)
    (gc : String × Nat) :
    sampleBody cfg acc gc
      = Except.ok (acc ++ (List.range gc.2).map (rowOf cs gc.1)) := by
  unfold sampleBody
  rw [mapM_ok_of_colors cs gc.1 gc.2 cfg h]
  rfl

theorem sampleBody_zero (cfg : Config) (acc : List SampleRow)
    (gc : String × Nat) (hc : gc.2 = 0) :
    sampleBody cfg acc gc = Except.ok acc := by
  unfold sampleBody
  rw [hc, List.range_zero, List.mapM_nil]
  show Except.ok (acc ++ []) = _
  rw [List.append_nil]

theorem sampleBody_err (cfg : Config) (h : cfg.visualizationColors = none)
    (acc : List SampleRow) (gc : String × Nat) (hc : 0 < gc.2) :
    sampleBody cfg acc gc
      = Except.error ("KeyError: " ++ "visualization.colors") := by
  obtain ⟨c2, hc2⟩ : ∃ c2, gc.2 = c2 + 1 := ⟨gc.2 - 1, by omega⟩
  unfold sampleBody
  rw [hc2, List.range_succ_eq_map, List.mapM_cons, h]
  rfl

theorem get_sample_info_ok (cfg : Config) (l : List (String × Nat))
    (cs : List (String × String)) (h1 : cfg.datasetSamples = some l)
    (h2 : cfg.visualizationColors = some cs) :
    get_sample_info cfg = Except.ok (sampleRowsPure l cs) := by
  rw [get_sample_info, h1]
  show l.foldlM _ [] = _
  clear h1
  suffices hgen : ∀ acc : List SampleRow,
      l.foldlM (sampleBody cfg) acc
        = Except.ok (acc ++ sampleRowsPure l cs) by
    simpa using hgen []
  induction l with
  | nil => intro acc; simp [sampleRowsPure]; rfl
  | cons gc rest ih =>
      intro acc
      rw [List.foldlM_cons]
      rw [sampleBody_ok cfg cs h2 acc gc]
      show rest.foldlM _ _ = _
      rw [ih (acc ++ _)]
      simp [sampleRowsPure, List.flatMap_cons]

theorem foldlM_samples_all_zero (cfg : Config) (l : List (String × Nat))
    (acc : List SampleRow) (hz : ∀ p ∈ l, p.2 = 0) :
    l.foldlM (sampleBody cfg) acc = Except.ok acc := by
  induction l generalizing acc with
  | nil => rfl
  | cons p rest ih =>
      rw [List.foldlM_cons, sampleBody_zero cfg acc p (hz p (by simp))]
      show rest.foldlM _ _ = _
      exact ih acc (fun q hq => hz q (by simp [hq]))

theorem foldlM_samples_err (cfg : Config)
    (h : cfg.visualizationColors = none) (l : List (String × Nat))
    (acc : List SampleRow) (hx : ∃ p ∈ l, 0 < p.2) :
    l.foldlM (sampleBody cfg) acc
      = Except.error ("KeyError: " ++ "visualization.colors") := by
  induction l generalizing acc with
  | nil =>
      rcases hx with ⟨p, hp, _⟩
      exact absurd hp (by simp)
  | cons p rest ih =>
      by_cases hp0 : 0 < p.2
      · rw [List.foldlM_cons, sampleBody_err cfg h acc p hp0]
        rfl
      · have hz : p.2 = 0 := by omega
        rw [List.foldlM_cons, sampleBody_zero cfg acc p hz]
        show rest.foldlM _ _ = _
        apply ih
        rcases hx with ⟨q, hq, hqpos⟩
        rcases List.mem_cons.mp hq with hq1 | hq2
        · exact absurd hqpos (by rw [hq1]; omega)
        · exact ⟨q, hq2, hqpos⟩

/-- Number of sample rows emitted before group index `gi`. -/
def groupOffset (samples : List (String × Nat)) (gi : Nat) : Nat :=
  ((samples.take gi).map Prod.snd).sum

theorem sampleRowsPure_cons (gc : String × Nat) (rest : List (String × Nat))
    (cs : List (String × String)) :
    sampleRowsPure (gc :: rest) cs
      = (List.range gc.2).map (rowOf cs gc.1) ++ sampleRowsPure rest cs := by
  simp [sampleRowsPure, List.flatMap_cons]

theorem sampleRowsPure_length (l : List (String × Nat))
    (cs : List (String × String)) :
    (sampleRowsPure l cs).length = (l.map Prod.snd).sum := by
  induction l with
  | nil => rfl
  | cons gc rest ih => rw [sampleRowsPure_cons]; simp [ih]

theorem sampleRowsPure_getElem (l : List (String × Nat))
    (cs : List (String × String)) (gi : Nat) (hg : gi < l.length) (i : Nat)
    (hi : i < (l.get ⟨gi, hg⟩).2) :
    (sampleRowsPure l cs)[groupOffset l gi + i]? = some
      { sample_id := (l.get ⟨gi, hg⟩).1 ++ "_" ++ toString (i + 1)
        group := (l.get ⟨gi, hg⟩).1
        color := colorFor cs (l.get ⟨gi, hg⟩).1 } := by
  induction l generalizing gi with
  | nil => exact absurd hg (by simp)
  | cons gc rest ih =>
      rw [sampleRowsPure_cons]
      cases gi with
      | zero =>
          have hi0 : i < gc.2 := hi
          rw [show groupOffset (gc :: rest) 0 + i = i from by simp [groupOffset]]
          rw [List.getElem?_append_left (by simpa using hi0)]
          rw [List.getElem?_map, List.getElem?_range hi0]
          rfl
      | succ gi2 =>
          have hg2 : gi2 < rest.length := Nat.lt_of_succ_lt_succ hg
          have hi2 : i < (rest.get ⟨gi2, hg2⟩).2 := hi
          have hoff : groupOffset (gc :: rest) (gi2 + 1) + i
              = ((List.range gc.2).map (rowOf cs gc.1)).length
                + (groupOffset rest gi2 + i) := by
            simp [groupOffset]
            omega
          rw [hoff]
          rw [List.getElem?_append_right (Nat.le_add_right _ _)]
          rw [Nat.add_sub_cancel_left]
          exact ih gi2 hg2 hi2

/-- C3: when `dataset.samples` and `visualization.colors` are both
present, `get_sample_info` returns exactly `N` rows (`N` the sum of the
group counts), enumerating the groups in stored order; within each group
the row at offset `i` carries `sample_id = "{group}_{i+1}"`, the group
name, and the color configured for the group in `visualization.colors`,
defaulting to `"#999999"` when the group has no configured color (the
default is built into `colorFor`). -/
theorem C3_sample_info_spec (cfg : Config) (l : List (String × Nat))
    (cs : List (String × String)) (h1 : cfg.datasetSamples = some l)
    (h2 : cfg.visualizationColors = some cs) :
    ∃ rows, get_sample_info cfg = Except.ok rows
      ∧ rows.length = (l.map Prod.snd).sum
      ∧ ∀ gi, (hg : gi < l.length) → ∀ i, i < (l.get ⟨gi, hg⟩).2 →
          rows[groupOffset l gi + i]? = some
            { sample_id := (l.get ⟨gi, hg⟩).1 ++ "_" ++ toString (i + 1)
              group := (l.get ⟨gi, hg⟩).1
              color := colorFor cs (l.get ⟨gi, hg⟩).1 } := by
  refine ⟨sampleRowsPure l cs, get_sample_info_ok cfg l cs h1 h2, ?_, ?_⟩
  · exact sampleRowsPure_length l cs
  · intro gi hg i hi
    exact sampleRowsPure_getElem l cs gi hg i hi

/-- Concrete instantiation of C3: two groups of sizes 2 and 1, one of
them without a configured color. -/
theorem C3_sample_info_spec_witness :
    (Config.mk none (some [("ctrl", 2), ("case", 1)])
        (some [("ctrl", "#ff0000")]) none none none).datasetSamples
      = some [("ctrl", 2), ("case", 1)]
    ∧ (Config.mk none (some [("ctrl", 2), ("case", 1)])
        (some [("ctrl", "#ff0000")]) none none none).visualizationColors
      = some [("ctrl", "#ff0000")]
    ∧ ∃ rows, get_sample_info (Config.mk none (some [("ctrl", 2), ("case", 1)])
        (some [("ctrl", "#ff0000")]) none none none) = Except.ok rows
      ∧ rows.length = ([("ctrl", 2), ("case", 1)].map Prod.snd).sum
      ∧ ∀ gi, (hg : gi < [("ctrl", 2), ("case", 1)].length) → ∀ i,
          i < ([("ctrl", 2), ("case", 1)].get ⟨gi, hg⟩).2 →
          rows[groupOffset [("ctrl", 2), ("case", 1)] gi + i]? = some
            { sample_id := ([("ctrl", 2), ("case", 1)].get ⟨gi, hg⟩).1
                ++ "_" ++ toString (i + 1)
              group := ([("ctrl", 2), ("case", 1)].get ⟨gi, hg⟩).1
              color := colorFor [("ctrl", "#ff0000")]
                ([("ctrl", 2), ("case", 1)].get ⟨gi, hg⟩).1 } :=
  ⟨rfl, rfl, C3_sample_info_spec _ [("ctrl", 2), ("case", 1)]
    [("ctrl", "#ff0000")] rfl rfl⟩

/-- C10 is refuted as stated: a configuration that lacks the
`visualization.colors` mapping entirely but whose `dataset.samples`
mapping is empty makes `get_sample_info` return an empty table instead
of failing with a key-lookup error, because the color access sits inside
the per-row loop body and the loop runs zero times. -/
theorem C10_counterexample :
    (Config.mk none (some []) none none none none).visualizationColors = none
    ∧ get_sample_info (Config.mk none (some []) none none none none)
        = Except.ok [] :=
  ⟨rfl, rfl⟩

/-- C10 (amended): `get_sample_info` fails with a key-lookup error
whenever the configuration lacks `dataset.samples`; when
`dataset.samples` is present but the `visualization.colors` mapping is
absent, it fails if and only if some group has a positive count (the
color access happens once per generated row), returning an empty table
when every count is zero; and when the colors mapping is present the
rows are built with `colorFor`, whose per-group default `"#999999"`
applies only inside that existing mapping. -/
theorem C10_keylookup_amended (cfg : Config) :
    (cfg.datasetSamples = none →
      get_sample_info cfg = Except.error ("KeyError: " ++ "dataset.samples"))
    ∧ (∀ l, cfg.datasetSamples = some l → cfg.visualizationColors = none →
        ((∃ p ∈ l, 0 < p.2) →
          get_sample_info cfg
            = Except.error ("KeyError: " ++ "visualization.colors"))
        ∧ ((∀ p ∈ l, p.2 = 0) → get_sample_info cfg = Except.ok []))
    ∧ (∀ l cs, cfg.datasetSamples = some l →
        cfg.visualizationColors = some cs →
        get_sample_info cfg = Except.ok (sampleRowsPure l cs)) := by
  refine ⟨?_, ?_, ?_⟩
  · intro h
    rw [get_sample_info, h]
    rfl
  · intro l h1 h2
    constructor
    · intro hx
      rw [get_sample_info, h1]
      show l.foldlM _ [] = _
      exact foldlM_samples_err cfg h2 l [] hx
    · intro hz
      rw [get_sample_info, h1]
      show l.foldlM _ [] = _
      exact foldlM_samples_all_zero cfg l [] hz
  · intro l cs h1 h2
    exact get_sample_info_ok cfg l cs h1 h2

/-- Concrete instantiations of the amended C10: a configuration without
`dataset.samples` fails on that key, and one with a nonempty group but
no colors mapping fails on the colors key. -/
theorem C10_keylookup_amended_witness :
    get_sample_info (Config.mk none none none none none none)
      = Except.error ("KeyError: " ++ "dataset.samples")
    ∧ get_sample_info (Config.mk none (some [("ctrl", 1)]) none none none none)
      = Except.error ("KeyError: " ++ "visualization.colors") :=
  ⟨(C10_keylookup_amended (Config.mk none none none none none none)).1 rfl,
   ((C10_keylookup_amended
      (Config.mk none (some [("ctrl", 1)]) none none none none)).2.1
      [("ctrl", 1)] rfl rfl).1 ⟨("ctrl", 1), by simp, by omega⟩⟩

/-- Number of completely empty features,
`len(data.columns[data.isnull().all()])` (helpers.py line 213). With
zero rows every column counts as empty, because `all()` over an empty
axis is true in pandas. -/
def emptyFeatureCount (df : DataFrame) : Nat :=
  ((List.range df.colNames.length).filter
    (fun j => df.rows.all (fun r => r.getD j false))).length

/-- Number of completely empty samples,
`len(data.index[data.isnull().all(axis=1)])` (helpers.py line 220). A
row with no columns counts as empty. -/
def emptySampleCount (df : DataFrame) : Nat :=
  (df.rows.filter (fun r => r.all (fun b => b))).length

/-- Row-count error message (helpers.py lines 208-210). -/
def rowCountMsg (expected n : Nat) : String :=
  "Expected " ++ toString expected ++ " samples, got " ++ toString n

/-- Empty-feature error message (helpers.py lines 215-217). -/
def emptyFeatureMsg (k : Nat) : String :=
  "Found " ++ toString k ++ " completely empty features"

/-- Empty-sample error message (helpers.py lines 222-224). -/
def emptySampleMsg (k : Nat) : String :=
  "Found " ++ toString k ++ " completely empty samples"

/-- Embedding of `validate_data` (helpers.py lines 186-228): three
checks append their messages to the error list in a fixed order, and
`is_valid` is the emptiness of that list. -/
def validate_data (data : DataFrame) (config : Config) :
    Except String (Bool × List String) := do
  let samples ← key? config.datasetSamples "dataset.samples"
  let expected := (samples.map Prod.snd).sum
  let errors0 : List String := []
  let errors1 := if data.rows.length ≠ expected
    then errors0 ++ [rowCountMsg expected data.rows.length] else errors0
  let errors2 := if 0 < emptyFeatureCount data
    then errors1 ++ [emptyFeatureMsg (emptyFeatureCount data)] else errors1
  let errors3 := if 0 < emptySampleCount data
    then errors2 ++ [emptySampleMsg (emptySampleCount data)] else errors2
  Except.ok (errors3.length == 0, errors3)

/-- The error list of `validate_data`, written as the concatenation of
the three independent checks in their fixed order. -/
def validationErrors (d : DataFrame) (expected : Nat) : List String :=
  (if d.rows.length ≠ expected
    then [rowCountMsg expected d.rows.length] else [])
  ++ (if 0 < emptyFeatureCount d
    then [emptyFeatureMsg (emptyFeatureCount d)] else [])
  ++ (if 0 < emptySampleCount d
    then [emptySampleMsg (emptySampleCount d)] else [])

theorem validate_data_eq (d : DataFrame) (cfg : Config)
    (l : List (String × Nat)) (h : cfg.datasetSamples = some l) :
    validate_data d cfg = Except.ok
      (((validationErrors d ((l.map Prod.snd).sum)).length == 0),
        validationErrors d ((l.map Prod.snd).sum)) := by
  rw [validate_data, h]
  show Except.ok _ = _
  by_cases h1 : d.rows.length ≠ (l.map Prod.snd).sum <;>
    by_cases h2 : 0 < emptyFeatureCount d <;>
    by_cases h3 : 0 < emptySampleCount d <;>
    simp [validationErrors, h1, h2, h3]

theorem head_of_append_str (s t : String) (c : Char)
    (h : s.data.head? = some c) : (s ++ t).data.head? = some c := by
  rw [String.data_append, List.head?_append, h]
  rfl

theorem rowCountMsg_head (e n : Nat) :
    (rowCountMsg e n).data.head? = some 'E' := by
  unfold rowCountMsg
  apply head_of_append_str
  apply head_of_append_str
  apply head_of_append_str
  rfl

theorem emptyFeatureMsg_head (k : Nat) :
    (emptyFeatureMsg k).data.head? = some 'F' := by
  unfold emptyFeatureMsg
  apply head_of_append_str
  apply head_of_append_str
  rfl

theorem emptySampleMsg_head (k : Nat) :
    (emptySampleMsg k).data.head? = some 'F' := by
  unfold emptySampleMsg
  apply head_of_append_str
  apply head_of_append_str
  rfl

theorem rowCountMsg_ne_emptyFeatureMsg (e n k : Nat) :
    rowCountMsg e n ≠ emptyFeatureMsg k := by
  intro hEq
  have h1 := rowCountMsg_head e n
  rw [hEq, emptyFeatureMsg_head k] at h1
  exact absurd h1 (by decide)

theorem rowCountMsg_ne_emptySampleMsg (e n k : Nat) :
    rowCountMsg e n ≠ emptySampleMsg k := by
  intro hEq
  have h1 := rowCountMsg_head e n
  rw [hEq, emptySampleMsg_head k] at h1
  exact absurd h1 (by decide)

/-- C2: with `dataset.samples` present, `validate_data` returns
`is_valid = true` iff its error list is empty; the error list is exactly
the concatenation of the row-count, empty-feature and empty-sample
messages in that fixed order; a row-count mismatch yields `is_valid =
false` with exactly one row-count error message; and a matching row
count with no fully-missing column and no fully-missing row yields
`(true, [])`. -/
theorem C2_validate_data_spec (d : DataFrame) (cfg : Config)
    (l : List (String × Nat)) (h : cfg.datasetSamples = some l) :
    ∃ v errs, validate_data d cfg = Except.ok (v, errs)
      ∧ (v = true ↔ errs = [])
      ∧ errs = validationErrors d ((l.map Prod.snd).sum)
      ∧ (d.rows.length ≠ (l.map Prod.snd).sum →
          v = false
          ∧ errs.count (rowCountMsg ((l.map Prod.snd).sum) d.rows.length) = 1)
      ∧ (d.rows.length = (l.map Prod.snd).sum →
          (∀ j, j < d.colNames.length → ∃ r ∈ d.rows, r.getD j false = false) →
          (∀ r ∈ d.rows, ∃ b ∈ r, b = false) →
          validate_data d cfg = Except.ok (true, [])) := by
  have hrun := validate_data_eq d cfg l h
  refine ⟨_, _, hrun, ?_, rfl, ?_, ?_⟩
  · simp
  · intro hne
    constructor
    · simp [validationErrors, hne]
    · have hnotmem : rowCountMsg ((l.map Prod.snd).sum) d.rows.length ∉
        ((if 0 < emptyFeatureCount d
            then [emptyFeatureMsg (emptyFeatureCount d)] else [])
          ++ (if 0 < emptySampleCount d
            then [emptySampleMsg (emptySampleCount d)] else [])) := by
        intro hmem
        rcases List.mem_append.mp hmem with hm | hm
        · by_cases h2 : 0 < emptyFeatureCount d
          · rw [if_pos h2] at hm
            exact rowCountMsg_ne_emptyFeatureMsg _ _ _
              (List.mem_singleton.mp hm)
          · rw [if_neg h2] at hm
            exact absurd hm (by simp)
        · by_cases h3 : 0 < emptySampleCount d
          · rw [if_pos h3] at hm
            exact rowCountMsg_ne_emptySampleMsg _ _ _
              (List.mem_singleton.mp hm)
          · rw [if_neg h3] at hm
            exact absurd hm (by simp)
      rw [validationErrors, if_pos hne, List.singleton_append,
        List.cons_append, List.count_cons_self,
        List.count_eq_zero.mpr hnotmem]
  · intro hlen hfeat hsamp
    have h2 : emptyFeatureCount d = 0 := by
      rw [emptyFeatureCount, List.length_eq_zero, List.filter_eq_nil_iff]
      intro j hj
      have hj2 : j < d.colNames.length := List.mem_range.mp hj
      rcases hfeat j hj2 with ⟨r, hr, hrf⟩
      intro hall
      rw [List.all_eq_true] at hall
      have hx := hall r hr
      rw [hrf] at hx
      exact absurd hx (by simp)
    have h3 : emptySampleCount d = 0 := by
      rw [emptySampleCount, List.length_eq_zero, List.filter_eq_nil_iff]
      intro r hr
      rcases hsamp r hr with ⟨b, hb, hbf⟩
      intro hall
      rw [List.all_eq_true] at hall
      have hx := hall b hb
      rw [hbf] at hx
      exact absurd hx (by simp)
    rw [hrun]
    simp [validationErrors, hlen, h2, h3]

/-- Concrete instantiation of C2 at a one-column, one-row dataset with a
matching configured total of 1. -/
theorem C2_validate_data_spec_witness :
    (Config.mk none (some [("g", 1)]) none none none none).datasetSamples
      = some [("g", 1)]
    ∧ ∃ v errs, validate_data (DataFrame.mk ["a"] [[false]])
        (Config.mk none (some [("g", 1)]) none none none none)
        = Except.ok (v, errs)
      ∧ (v = true ↔ errs = [])
      ∧ errs = validationErrors (DataFrame.mk ["a"] [[false]])
          (([("g", 1)].map Prod.snd).sum)
      ∧ ((DataFrame.mk ["a"] [[false]]).rows.length
            ≠ ([("g", 1)].map Prod.snd).sum →
          v = false
          ∧ errs.count (rowCountMsg (([("g", 1)].map Prod.snd).sum)
              (DataFrame.mk ["a"] [[false]]).rows.length) = 1)
      ∧ ((DataFrame.mk ["a"] [[false]]).rows.length
            = ([("g", 1)].map Prod.snd).sum →
          (∀ j, j < (DataFrame.mk ["a"] [[false]]).colNames.length →
            ∃ r ∈ (DataFrame.mk ["a"] [[false]]).rows, r.getD j false = false) →
          (∀ r ∈ (DataFrame.mk ["a"] [[false]]).rows, ∃ b ∈ r, b = false) →
          validate_data (DataFrame.mk ["a"] [[false]])
            (Config.mk none (some [("g", 1)]) none none none none)
            = Except.ok (true, [])) :=
  ⟨rfl, C2_validate_data_spec (DataFrame.mk ["a"] [[false]])
    (Config.mk none (some [("g", 1)]) none none none none) [("g", 1)] rfl⟩

/-- The runtime world of the effectful embedding: a trace of performed
I/O events. -/
structure World where
  events : List String
deriving DecidableEq, Repr

/-- Statement-by-statement re-translation of `validate_data` with the
runtime world and the two argument objects threaded explicitly. No
statement of the source (helpers.py lines 186-228) performs an I/O
operation or assigns into `data` or `config`, so every step passes the
world and the objects through unchanged; the returned `DataFrame` and
`Config` are the post-call states of the two argument objects. -/
def validate_data_run (data : DataFrame) (config : Config) (w : World) :
    World × DataFrame × Config × Except String (Bool × List String) :=
  match key? config.datasetSamples "dataset.samples" with
  | Except.error e => (w, data, config, Except.error e)
  | Except.ok samples =>
    let expected := (samples.map Prod.snd).sum
    let errors0 : List String := []
    let errors1 := if data.rows.length ≠ expected
      then errors0 ++ [rowCountMsg expected data.rows.length] else errors0
    let errors2 := if 0 < emptyFeatureCount data
      then errors1 ++ [emptyFeatureMsg (emptyFeatureCount data)] else errors1
    let errors3 := if 0 < emptySampleCount data
      then errors2 ++ [emptySampleMsg (emptySampleCount data)] else errors2
    (w, data, config, Except.ok (errors3.length == 0, errors3))

/-- C8: `validate_data` is pure and deterministic: the effectful
embedding leaves the world untouched (no I/O event is appended) and
returns both argument objects unchanged; its result is exactly the pure
function of the two inputs; and the result does not depend on the world,
so two runs on equal inputs return equal results. -/
theorem C8_validate_data_pure (d : DataFrame) (c : Config) (w w2 : World) :
    (validate_data_run d c w).1 = w
    ∧ (validate_data_run d c w).2.1 = d
    ∧ (validate_data_run d c w).2.2.1 = c
    ∧ (validate_data_run d c w).2.2.2 = validate_data d c
    ∧ (validate_data_run d c w).2.2.2 = (validate_data_run d c w2).2.2.2 := by
  have hsplit : ∀ w3 : World,
      validate_data_run d c w3 = (w3, d, c, validate_data d c) := by
    intro w3
    unfold validate_data_run
    rw [validate_data]
    cases hk : key? c.datasetSamples "dataset.samples" with
    | error e => rfl
    | ok samples => rfl
  refine ⟨?_, ?_, ?_, ?_, ?_⟩ <;> simp [hsplit]

/-- A NumPy array artifact as this layer observes it: only its identity
as a non-DataFrame numeric array matters to the dispatch. -/
structure NpArray where
  shape : List Nat
deriving DecidableEq, Repr

/-- An artifact accepted by `save_results`
(type `Union[pd.DataFrame, np.ndarray]`). -/
inductive Artifact where
  | df : DataFrame → Artifact
  | arr : NpArray → Artifact
deriving DecidableEq, Repr

/-- Persistence encodings reachable from `save_results`: CSV text,
Excel spreadsheet, pickle binary snapshot, NumPy binary snapshot. -/
inductive SaveFormat where
  | csv : SaveFormat
  | xlsx : SaveFormat
  | pickle : SaveFormat
  | npy : SaveFormat
deriving DecidableEq, Repr

/-- Filesystem and logging effects performed by the exporter. -/
inductive Effect where
  | mkdirP : String → Effect
  | fileWrite : String → SaveFormat → Effect
  | logInfo : String → Effect
deriving DecidableEq, Repr

/-- Python `str.endswith`, modelled on the character list. -/
def strEndsWith (s pat : String) : Bool :=
  pat.data.isSuffixOf s.data

/-- Embedding of `save_results` (helpers.py lines 81-114): resolve the
output directory from `config["paths"][subdirectory]`, create it, then
dispatch the encoding on the artifact type and the filename extension,
returning the list of performed effects. (The `.npy` suffix `np.save`
may add to the written path is not modelled; only the chosen encoding
matters here.) -/
def save_results (data : Artifact) (filename : String) (config : Config)
    (subdirectory : String) : Except String (List Effect) :=
  match key? config.paths "paths" with
  | Except.error e => Except.error e
  | Except.ok paths =>
    match key? (List.lookup subdirectory paths) ("paths." ++ subdirectory) with
    | Except.error e => Except.error e
    | Except.ok dirv =>
      let outputPath := dirv ++ "/" ++ filename
      let writeEffs : List Effect :=
        match data with
        | Artifact.df _ =>
          if strEndsWith filename ".csv"
            then [Effect.fileWrite outputPath SaveFormat.csv]
          else if strEndsWith filename ".xlsx"
            then [Effect.fileWrite outputPath SaveFormat.xlsx]
          else [Effect.fileWrite outputPath SaveFormat.pickle]
        | Artifact.arr _ => [Effect.fileWrite outputPath SaveFormat.npy]
      Except.ok ([Effect.mkdirP dirv] ++ writeEffs
        ++ [Effect.logInfo ("Results saved to " ++ outputPath)])

theorem not_csv_of_xlsx (s : String) (h : strEndsWith s ".xlsx" = true) :
    strEndsWith s ".csv" = false := by
  cases hc : strEndsWith s ".csv" with
  | false => rfl
  | true =>
      exfalso
      rw [strEndsWith, List.isSuffixOf_iff_suffix] at h hc
      rcases List.suffix_or_suffix_of_suffix hc h with hx | hx
      · exact absurd hx (by decide)
      · exact absurd hx (by decide)

theorem save_results_eq (data : Artifact) (filename : String) (cfg : Config)
    (sd : String) (ps : List (String × String)) (dirv : String)
    (h1 : cfg.paths = some ps) (h2 : List.lookup sd ps = some dirv) :
    save_results data filename cfg sd = Except.ok
      ([Effect.mkdirP dirv]
        ++ (match data with
            | Artifact.df _ =>
              if strEndsWith filename ".csv"
                then [Effect.fileWrite (dirv ++ "/" ++ filename) SaveFormat.csv]
              else if strEndsWith filename ".xlsx"
                then [Effect.fileWrite (dirv ++ "/" ++ filename)
                  SaveFormat.xlsx]
              else [Effect.fileWrite (dirv ++ "/" ++ filename)
                SaveFormat.pickle]
            | Artifact.arr _ =>
              [Effect.fileWrite (dirv ++ "/" ++ filename) SaveFormat.npy])
        ++ [Effect.logInfo
              ("Results saved to " ++ (dirv ++ "/" ++ filename))]) := by
  simp only [save_results, key?, h1, h2]

/-- C4: with the target directory resolvable from the configuration,
`save_results` writes exactly one file, whose encoding is chosen as the
claim states: a DataFrame artifact with a filename ending in `.csv` is
written as CSV, one ending in `.xlsx` as an Excel spreadsheet, any other
extension on a DataFrame falls back to the pickle binary snapshot, and a
NumPy array artifact is always written in the NumPy binary snapshot
format regardless of extension. -/
theorem C4_save_results_format (data : Artifact) (filename : String)
    (cfg : Config) (sd : String) (ps : List (String × String))
    (dirv : String) (h1 : cfg.paths = some ps)
    (h2 : List.lookup sd ps = some dirv) :
    ∃ fmt, save_results data filename cfg sd = Except.ok
        [Effect.mkdirP dirv,
         Effect.fileWrite (dirv ++ "/" ++ filename) fmt,
         Effect.logInfo ("Results saved to " ++ (dirv ++ "/" ++ filename))]
      ∧ ((∃ d0, data = Artifact.df d0) →
          (strEndsWith filename ".csv" = true → fmt = SaveFormat.csv)
          ∧ (strEndsWith filename ".xlsx" = true → fmt = SaveFormat.xlsx)
          ∧ (strEndsWith filename ".csv" = false →
              strEndsWith filename ".xlsx" = false →
              fmt = SaveFormat.pickle))
      ∧ ((∃ a, data = Artifact.arr a) → fmt = SaveFormat.npy) := by
  have heq := save_results_eq data filename cfg sd ps dirv h1 h2
  cases data with
  | df d0 =>
      by_cases hcsv : strEndsWith filename ".csv" = true
      · refine ⟨SaveFormat.csv, ?_, ?_, ?_⟩
        · rw [heq]
          simp [hcsv]
        · exact fun _ => ⟨fun _ => rfl,
            fun hx => absurd hcsv (by rw [not_csv_of_xlsx filename hx]; simp),
            fun hc _ => absurd hcsv (by rw [hc]; simp)⟩
        · rintro ⟨a, ha⟩
          exact absurd ha (by simp)
      · by_cases hxlsx : strEndsWith filename ".xlsx" = true
        · refine ⟨SaveFormat.xlsx, ?_, ?_, ?_⟩
          · rw [heq]
            simp [hcsv, hxlsx]
          · exact fun _ => ⟨fun hx => absurd hx hcsv, fun _ => rfl,
              fun _ hx => absurd hxlsx (by rw [hx]; simp)⟩
          · rintro ⟨a, ha⟩
            exact absurd ha (by simp)
        · refine ⟨SaveFormat.pickle, ?_, ?_, ?_⟩
          · rw [heq]
            simp [hcsv, hxlsx]
          · exact fun _ => ⟨fun hx => absurd hx hcsv,
              fun hx => absurd hx hxlsx, fun _ _ => rfl⟩
          · rintro ⟨a, ha⟩
            exact absurd ha (by simp)
  | arr a0 =>
      refine ⟨SaveFormat.npy, ?_, ?_, ?_⟩
      · rw [heq]
        simp
      · rintro ⟨d0, hd⟩
        exact absurd hd (by simp)
      · exact fun _ => rfl

/-- Concrete instantiation of C4 at a CSV filename. -/
theorem C4_save_results_format_witness :
    (Config.mk (some [("results", "out")]) none none none none none).paths
      = some [("results", "out")]
    ∧ List.lookup "results" [("results", "out")] = some "out"
    ∧ ∃ fmt, save_results (Artifact.df (DataFrame.mk [] []))
        "a.csv" (Config.mk (some [("results", "out")]) none none none none
          none) "results" = Except.ok
        [Effect.mkdirP "out",
         Effect.fileWrite ("out" ++ "/" ++ "a.csv") fmt,
         Effect.logInfo ("Results saved to " ++ ("out" ++ "/" ++ "a.csv"))]
      ∧ ((∃ d0, Artifact.df (DataFrame.mk [] []) = Artifact.df d0) →
          (strEndsWith "a.csv" ".csv" = true → fmt = SaveFormat.csv)
          ∧ (strEndsWith "a.csv" ".xlsx" = true → fmt = SaveFormat.xlsx)
          ∧ (strEndsWith "a.csv" ".csv" = false →
              strEndsWith "a.csv" ".xlsx" = false →
              fmt = SaveFormat.pickle))
      ∧ ((∃ a, Artifact.df (DataFrame.mk [] []) = Artifact.arr a) →
          fmt = SaveFormat.npy) :=
  ⟨rfl, rfl, C4_save_results_format (Artifact.df (DataFrame.mk [] []))
    "a.csv" (Config.mk (some [("results", "out")]) none none none none none)
    "results" [("results", "out")] "out" rfl rfl⟩

/-- C5: `save_results` never silently swallows a failure: for every
accepted artifact and every configuration it either fails with a raised
(propagated) error or returns an effect trace that contains a file
write. (The other failure mode of the layer, `validate_data`, returns
its collected messages to the caller, Claim C2.) -/
theorem C5_save_results_writes_or_raises (data : Artifact)
    (filename : String) (cfg : Config) (sd : String) :
    (∃ e, save_results data filename cfg sd = Except.error e)
    ∨ (∃ effs, save_results data filename cfg sd = Except.ok effs
        ∧ ∃ p fmt, Effect.fileWrite p fmt ∈ effs) := by
  cases hp : cfg.paths with
  | none =>
      left
      refine ⟨"KeyError: " ++ "paths", ?_⟩
      simp only [save_results, key?, hp]
  | some ps =>
      cases hl : List.lookup sd ps with
      | none =>
          left
          refine ⟨"KeyError: " ++ ("paths." ++ sd), ?_⟩
          simp only [save_results, key?, hp, hl]
      | some dirv =>
          right
          refine ⟨_, save_results_eq data filename cfg sd ps dirv hp hl, ?_⟩
          cases data with
          | df d0 =>
              by_cases hcsv : strEndsWith filename ".csv" = true
              · exact ⟨dirv ++ "/" ++ filename, SaveFormat.csv,
                  by simp [hcsv]⟩
              · by_cases hxlsx : strEndsWith filename ".xlsx" = true
                · exact ⟨dirv ++ "/" ++ filename, SaveFormat.xlsx,
                    by simp [hcsv, hxlsx]⟩
                · exact ⟨dirv ++ "/" ++ filename, SaveFormat.pickle,
                    by simp [hcsv, hxlsx]⟩
          | arr a0 =>
              exact ⟨dirv ++ "/" ++ filename, SaveFormat.npy, by simp⟩

/-- The directory set of the modelled filesystem. -/
abbrev DirSet := List String

/-- One `mkdir` step with `exist_ok=True`: insert the directory if it is
absent, never fail. -/
def insertDir (q : String) (fs : DirSet) : DirSet :=
  if q ∈ fs then fs else fs ++ [q]

/-- The slash-separated prefixes of a path, shortest first: the
directories `Path(p).mkdir(parents=True)` guarantees to exist. -/
def pathAncestors (p : String) : List String :=
  (List.range (p.splitOn "/").length).map
    (fun k => String.intercalate "/" ((p.splitOn "/").take (k + 1)))

/-- Model of `Path(p).mkdir(parents=True, exist_ok=True)` (helpers.py
line 78): create every missing ancestor of `p`, never fail. -/
def mkdirParents (p : String) (fs : DirSet) : DirSet :=
  (pathAncestors p).foldl (fun acc q => insertDir q acc) fs

/-- The directory set after processing a `paths` section in stored
order. -/
def pathsFold (ps : List (String × String)) (fs : DirSet) : DirSet :=
  ps.foldl (fun acc pr => mkdirParents pr.2 acc) fs

/-- Embedding of `create_directories` (helpers.py lines 68-78): loop
over the entries of `config["paths"]` in stored order, recursively
creating each configured directory. -/
def create_directories (config : Config) (fs : DirSet) :
    Except String DirSet :=
  match key? config.paths "paths" with
  | Except.error e => Except.error e
  | Except.ok ps => Except.ok (pathsFold ps fs)

theorem mem_insertDir (x q : String) (fs : DirSet) :
    x ∈ insertDir q fs ↔ x = q ∨ x ∈ fs := by
  by_cases h : q ∈ fs
  · rw [insertDir, if_pos h]
    constructor
    · exact Or.inr
    · rintro (rfl | hx)
      · exact h
      · exact hx
  · rw [insertDir, if_neg h]
    simp [List.mem_append, or_comm]

theorem foldl_insert_mono (l : List String) (fs : DirSet) (x : String)
    (hx : x ∈ fs) : x ∈ l.foldl (fun a q => insertDir q a) fs := by
  induction l generalizing fs with
  | nil => exact hx
  | cons p rest ih =>
      rw [List.foldl_cons]
      exact ih (insertDir p fs) ((mem_insertDir x p fs).mpr (Or.inr hx))

theorem mem_foldl_insert (l : List String) (fs : DirSet) (q : String)
    (hq : q ∈ l) : q ∈ l.foldl (fun a q => insertDir q a) fs := by
  induction l generalizing fs with
  | nil => exact absurd hq (by simp)
  | cons p rest ih =>
      rw [List.foldl_cons]
      rcases List.mem_cons.mp hq with rfl | hq2
      · exact foldl_insert_mono rest (insertDir q fs) q
          ((mem_insertDir q q fs).mpr (Or.inl rfl))
      · exact ih (insertDir p fs) hq2

theorem foldl_insert_fixed (l : List String) (fs : DirSet)
    (h : ∀ q ∈ l, q ∈ fs) : l.foldl (fun a q => insertDir q a) fs = fs := by
  induction l with
  | nil => rfl
  | cons p rest ih =>
      rw [List.foldl_cons, insertDir, if_pos (h p (by simp))]
      exact ih (fun q hq => h q (by simp [hq]))

theorem pathsFold_mono (ps : List (String × String)) (fs : DirSet)
    (x : String) (hx : x ∈ fs) : x ∈ pathsFold ps fs := by
  induction ps generalizing fs with
  | nil => exact hx
  | cons pr rest ih =>
      rw [pathsFold, List.foldl_cons]
      exact ih (mkdirParents pr.2 fs) (foldl_insert_mono _ fs x hx)

theorem pathsFold_covers (ps : List (String × String)) (fs : DirSet) :
    ∀ pr ∈ ps, ∀ q ∈ pathAncestors pr.2, q ∈ pathsFold ps fs := by
  induction ps generalizing fs with
  | nil => intro pr hpr; exact absurd hpr (by simp)
  | cons p rest ih =>
      intro pr hpr q hq
      rcases List.mem_cons.mp hpr with rfl | hpr2
      · rw [pathsFold, List.foldl_cons]
        exact pathsFold_mono rest (mkdirParents pr.2 fs) q
          (mem_foldl_insert _ fs q hq)
      · rw [pathsFold, List.foldl_cons]
        exact ih (mkdirParents p.2 fs) pr hpr2 q hq

theorem pathsFold_fixed (ps : List (String × String)) (fs : DirSet)
    (h : ∀ pr ∈ ps, ∀ q ∈ pathAncestors pr.2, q ∈ fs) :
    pathsFold ps fs = fs := by
  induction ps with
  | nil => rfl
  | cons p rest ih =>
      rw [pathsFold, List.foldl_cons]
      rw [show mkdirParents p.2 fs = fs from
        foldl_insert_fixed _ fs (h p (by simp))]
      exact ih (fun pr hpr q hq => h pr (by simp [hpr]) q hq)

/-- C7: `create_directories` is idempotent: starting from any directory
set, a first call succeeds and produces a set containing every
slash-separated ancestor of every configured path (so each entry is
created recursively) as well as every pre-existing directory (a
pre-existing directory is not an error), and a second call on the same
configuration succeeds and returns that set unchanged. -/
theorem C7_create_directories_idempotent (cfg : Config)
    (ps : List (String × String)) (h : cfg.paths = some ps) (fs : DirSet) :
    ∃ fs1, create_directories cfg fs = Except.ok fs1
      ∧ create_directories cfg fs1 = Except.ok fs1
      ∧ (∀ pr ∈ ps, ∀ q ∈ pathAncestors pr.2, q ∈ fs1)
      ∧ (∀ x ∈ fs, x ∈ fs1) := by
  refine ⟨pathsFold ps fs, ?_, ?_, pathsFold_covers ps fs, ?_⟩
  · simp only [create_directories, key?, h]
  · simp only [create_directories, key?, h]
    rw [pathsFold_fixed ps (pathsFold ps fs) (pathsFold_covers ps fs)]
  · exact fun x hx => pathsFold_mono ps fs x hx

/-- Concrete instantiation of C7 at a two-entry paths section on an
empty filesystem. -/
theorem C7_create_directories_idempotent_witness :
    (Config.mk (some [("results", "out/res"), ("logs", "out/logs")])
        none none none none none).paths
      = some [("results", "out/res"), ("logs", "out/logs")]
    ∧ ∃ fs1, create_directories
        (Config.mk (some [("results", "out/res"), ("logs", "out/logs")])
          none none none none none) [] = Except.ok fs1
      ∧ create_directories
          (Config.mk (some [("results", "out/res"), ("logs", "out/logs")])
            none none none none none) fs1 = Except.ok fs1
      ∧ (∀ pr ∈ [("results", "out/res"), ("logs", "out/logs")],
          ∀ q ∈ pathAncestors pr.2, q ∈ fs1)
      ∧ (∀ x ∈ ([] : DirSet), x ∈ fs1) :=
  ⟨rfl, C7_create_directories_idempotent
    (Config.mk (some [("results", "out/res"), ("logs", "out/logs")])
      none none none none none)
    [("results", "out/res"), ("logs", "out/logs")] rfl []⟩

/-- Python `str.upper`, modelled character-wise (the method names used
here are ASCII). -/
def pyUpper (s : String) : String := String.mk (s.data.map Char.toUpper)

/-- Zero-padded 4-digit decimal rendering of a number below 10000. -/
def pad4 (n : Nat) : String :=
  if n < 10 then "000" ++ toString n
  else if n < 100 then "00" ++ toString n
  else if n < 1000 then "0" ++ toString n
  else toString n

/-- Python `f"{v:.4f}"` on an exact rational: round `v * 10000` to the
nearest integer, half away from zero, and print with four fraction
digits. (On an IEEE double an exact decimal tie is resolved by the sign
of the binary representation error; the value 0.12345 named by the spec
is stored slightly above the tie and rounds up, which this rule
matches.) -/
def fmt4 (v : ℚ) : String :=
  let b := v.den
  if v.num < 0 then
    let a := (-v.num).toNat
    let n := (20000 * a + b) / (2 * b)
    "-" ++ toString (n / 10000) ++ "." ++ pad4 (n % 10000)
  else
    let a := v.num.toNat
    let n := (20000 * a + b) / (2 * b)
    toString (n / 10000) ++ "." ++ pad4 (n % 10000)

/-- One metric line, `f"  {metric_name}: {metric_value:.4f}"`
(helpers.py line 261). -/
def metricLine (kv : String × ℚ) : String :=
  "  " ++ kv.1 ++ ": " ++ fmt4 kv.2

/-- The summary entries appended for one method (helpers.py lines
258-261): the uppercased header, then one line per metric. -/
def methodBlock (m : String) (ms : List (String × ℚ)) : List String :=
  ("\n" ++ pyUpper m ++ " Results:") :: ms.map metricLine

/-- Python `"\n".join(...)`. -/
def joinNL : List String → String
  | [] => ""
  | [x] => x
  | x :: rest => x ++ "\n" ++ joinNL rest

/-- The `"=" * 80` border (helpers.py line 249). -/
def borderEq : String := String.mk (List.replicate 80 '=')

/-- The `"-" * 80` separator (helpers.py line 256). -/
def borderDash : String := String.mk (List.replicate 80 '-')

/-- The fixed header entries of the report (helpers.py lines 249-256). -/
def headerLines (pname now dname : String) (total : Nat) : List String :=
  [borderEq,
   "METABOLOMICS IMPUTATION ANALYSIS SUMMARY",
   borderEq,
   "\n" ++ "Project: " ++ pname,
   "Date: " ++ now,
   "\n" ++ "Dataset: " ++ dname,
   "Total samples: " ++ toString total,
   "\n" ++ borderDash]

/-- Embedding of `generate_report_summary` (helpers.py lines 231-265).
The current timestamp is passed explicitly as `now`. -/
def generate_report_summary (results : List (String × List (String × ℚ)))
    (config : Config) (now : String) : Except String String :=
  match key? config.projectName "project.name" with
  | Except.error e => Except.error e
  | Except.ok pname =>
    match key? config.datasetName "dataset.name" with
    | Except.error e => Except.error e
    | Except.ok dname =>
      match key? config.totalFiles "dataset.total_files" with
      | Except.error e => Except.error e
      | Except.ok total =>
        Except.ok (joinNL (headerLines pname now dname total
          ++ results.flatMap (fun mr => methodBlock mr.1 mr.2)
          ++ ["\n" ++ borderEq]))

/-- The metric lines of one method as a single string, each line
preceded by its separator. -/
def metricsString : List (String × ℚ) → String
  | [] => ""
  | kv :: rest => "\n" ++ metricLine kv ++ metricsString rest

/-- One method section of the joined report: uppercased header line
followed by one line per metric. -/
def blockString (m : String) (ms : List (String × ℚ)) : String :=
  "\n" ++ pyUpper m ++ " Results:" ++ metricsString ms

/-- Concatenation of a list of strings. -/
def strConcat : List String → String
  | [] => ""
  | s :: rest => s ++ strConcat rest

theorem joinNL_cons_cons (x y : String) (rest : List String) :
    joinNL (x :: y :: rest) = x ++ "\n" ++ joinNL (y :: rest) := rfl

theorem joinNL_append (xs ys : List String) (hxs : xs ≠ [])
    (hys : ys ≠ []) :
    joinNL (xs ++ ys) = joinNL xs ++ "\n" ++ joinNL ys := by
  induction xs with
  | nil => exact absurd rfl hxs
  | cons x xs2 ih =>
      cases xs2 with
      | nil =>
          cases ys with
          | nil => exact absurd rfl hys
          | cons y ys2 => rfl
      | cons x2 xs3 =>
          rw [List.cons_append, List.cons_append, joinNL_cons_cons,
            ← List.cons_append, ih (by simp), joinNL_cons_cons]
          simp [String.append_assoc]

theorem joinNL_cons_metrics (s : String) (ms : List (String × ℚ)) :
    joinNL (s :: ms.map metricLine) = s ++ metricsString ms := by
  induction ms generalizing s with
  | nil => simp [joinNL, metricsString]
  | cons kv rest ih =>
      rw [List.map_cons, joinNL_cons_cons, metricsString, ih (metricLine kv)]
      simp [String.append_assoc]

theorem joinNL_methodBlock (m : String) (ms : List (String × ℚ)) :
    joinNL (methodBlock m ms) = blockString m ms := by
  rw [methodBlock, blockString]
  exact joinNL_cons_metrics _ ms

theorem joinNL_report (P : List String) (hP : P ≠ [])
    (rs : List (String × List (String × ℚ))) (F : String) :
    joinNL (P ++ rs.flatMap (fun mr => methodBlock mr.1 mr.2) ++ [F])
      = joinNL P
        ++ strConcat (rs.map (fun mr => "\n" ++ blockString mr.1 mr.2))
        ++ ("\n" ++ F) := by
  induction rs generalizing P with
  | nil =>
      rw [List.flatMap_nil, List.append_nil,
        joinNL_append P [F] hP (by simp)]
      simp [strConcat, joinNL, String.append_assoc]
  | cons mr rest ih =>
      rw [List.flatMap_cons]
      rw [show P ++ (methodBlock mr.1 mr.2
            ++ rest.flatMap (fun mr => methodBlock mr.1 mr.2)) ++ [F]
          = (P ++ methodBlock mr.1 mr.2)
            ++ rest.flatMap (fun mr => methodBlock mr.1 mr.2) ++ [F]
        from by simp]
      rw [ih (P ++ methodBlock mr.1 mr.2) (by simp [methodBlock])]
      rw [joinNL_append P (methodBlock mr.1 mr.2) hP (by simp [methodBlock])]
      rw [joinNL_methodBlock, List.map_cons, strConcat]
      simp [String.append_assoc]

/-- C6: with the project name, dataset name and total-files keys
present, the report is the fixed header joined with, for each method in
mapping iteration order, an uppercased method header line followed by
one line per metric with the value formatted to 4 decimal places, and a
closing border; in particular, for the results mapping
`{"knn": {"rmse": 0.12345}}` the report contains the line
`  rmse: 0.1235` directly under the header `KNN Results:`. -/
theorem C6_report_summary (results : List (String × List (String × ℚ)))
    (cfg : Config) (now pname dname : String) (total : Nat)
    (h1 : cfg.projectName = some pname) (h2 : cfg.datasetName = some dname)
    (h3 : cfg.totalFiles = some total) :
    (∃ rep, generate_report_summary results cfg now = Except.ok rep
      ∧ rep = joinNL (headerLines pname now dname total)
          ++ strConcat (results.map (fun mr => "\n" ++ blockString mr.1 mr.2))
          ++ ("\n" ++ ("\n" ++ borderEq)))
    ∧ (∃ rep2, generate_report_summary
          [("knn", [("rmse", (12345 : ℚ) / 100000)])] cfg now
          = Except.ok rep2
        ∧ ∃ pre post, rep2
            = pre ++ ("\n" ++ "KNN Results:" ++ ("\n" ++ "  rmse: 0.1235"))
              ++ post) := by
  have hgen : ∀ rs : List (String × List (String × ℚ)),
      generate_report_summary rs cfg now = Except.ok
        (joinNL (headerLines pname now dname total
          ++ rs.flatMap (fun mr => methodBlock mr.1 mr.2)
          ++ ["\n" ++ borderEq])) := by
    intro rs
    simp only [generate_report_summary, key?, h1, h2, h3]
  constructor
  · refine ⟨_, hgen results, ?_⟩
    exact joinNL_report (headerLines pname now dname total)
      (by simp [headerLines]) results ("\n" ++ borderEq)
  · refine ⟨_, hgen [("knn", [("rmse", (12345 : ℚ) / 100000)])], ?_⟩
    rw [joinNL_report (headerLines pname now dname total)
      (by simp [headerLines]) _ ("\n" ++ borderEq)]
    have hval : (12345 : ℚ) / 100000 = Rat.mk' 2469 20000 := by
      rw [Rat.mk'_eq_divInt, Rat.divInt_eq_div]
      norm_num
    have hb : blockString "knn" [("rmse", Rat.mk' 2469 20000)]
        = "\n" ++ "KNN Results:" ++ ("\n" ++ "  rmse: 0.1235") := by decide
    rw [List.map_cons, List.map_nil, strConcat, strConcat,
      String.append_empty, hval]
    rw [show (("knn", [("rmse", Rat.mk' 2469 20000)]) :
        String × List (String × ℚ)).1 = "knn" from rfl]
    rw [show (("knn", [("rmse", Rat.mk' 2469 20000)]) :
        String × List (String × ℚ)).2 = [("rmse", Rat.mk' 2469 20000)]
      from rfl]
    rw [hb]
    refine ⟨joinNL (headerLines pname now dname total) ++ "\n",
      "\n" ++ ("\n" ++ borderEq), ?_⟩
    simp [String.append_assoc]

/-- Concrete instantiation of C6 at the configuration named by the
specification (project "Test", dataset "D"). -/
theorem C6_report_summary_witness :
    (Config.mk none none none (some "Test") (some "D")
        (some 100)).projectName = some "Test"
    ∧ (Config.mk none none none (some "Test") (some "D")
        (some 100)).datasetName = some "D"
    ∧ (Config.mk none none none (some "Test") (some "D")
        (some 100)).totalFiles = some 100
    ∧ ((∃ rep, generate_report_summary
          [("knn", [("rmse", (12345 : ℚ) / 100000)])]
          (Config.mk none none none (some "Test") (some "D") (some 100))
          "2026-01-01" = Except.ok rep
        ∧ rep = joinNL (headerLines "Test" "2026-01-01" "D" 100)
            ++ strConcat ([("knn", [("rmse", (12345 : ℚ) / 100000)])].map
                (fun mr => "\n" ++ blockString mr.1 mr.2))
            ++ ("\n" ++ ("\n" ++ borderEq)))
      ∧ (∃ rep2, generate_report_summary
            [("knn", [("rmse", (12345 : ℚ) / 100000)])]
            (Config.mk none none none (some "Test") (some "D") (some 100))
            "2026-01-01" = Except.ok rep2
          ∧ ∃ pre post, rep2
              = pre ++ ("\n" ++ "KNN Results:" ++ ("\n" ++ "  rmse: 0.1235"))
                ++ post)) :=
  ⟨rfl, rfl, rfl, C6_report_summary
    [("knn", [("rmse", (12345 : ℚ) / 100000)])]
    (Config.mk none none none (some "Test") (some "D") (some 100))
    "2026-01-01" "Test" "D" 100 rfl rfl rfl⟩
